import Mathlib

/-!
Shallow embedding of `src/rust_engine/src/main.rs` (value_investing).

The program fetches a company-facts document, extracts observations for a
fixed catalog of metrics, classifies them by period shape (FLOW vs INSTANT),
reconciles one value per fiscal year by maximal absolute value, and emits a
report.  Here every piece of that pipeline is modelled as a pure Lean
function; `f64` values are modelled as rationals (all comparisons used by the
program are order/abs comparisons, which agree on the exactly representable
values involved), and Rust `HashMap` contents are modelled as association
lists whose list order stands for the map's iteration order.
-/

namespace ValueInvesting

/-! ## Data model (mirrors the serde structs of `main.rs`) -/

/-- One reported fact, mirroring `struct FactUnit { val, fy, fp, start, end }`.
`end` is a Lean keyword, hence the field name `end_`. -/
structure FactUnit where
  val : Option ℚ
  fy : Option Nat
  fp : Option String
  start : Option String
  end_ : Option String
deriving DecidableEq

/-- Mirrors `struct FactData { units: HashMap<String, Vec<FactUnit>> }`.
The association-list order models the `HashMap` iteration order used by
`for (_unit_name, units) in &data.units`. -/
structure FactData where
  units : List (String × List FactUnit)
deriving DecidableEq

/-- The `us-gaap` map of `struct FactsContainer`: tag name to fact data. -/
abbrev Gaap := List (String × FactData)

/-- Mirrors `struct FactsContainer { us_gaap: Option<HashMap<..>> }`. -/
structure FactsContainer where
  us_gaap : Option Gaap
deriving DecidableEq

/-- Mirrors `struct CompanyFacts { entityName, facts }`. -/
structure CompanyFacts where
  entityName : String
  facts : FactsContainer
deriving DecidableEq

/-- Mirrors `struct TickerEntry { cik_str: u64, ticker: String }`. -/
structure TickerEntry where
  cik_str : Nat
  ticker : String
deriving DecidableEq

/-- First-match lookup in an association list; models `HashMap::get` (keys of
the maps being modelled are unique, so first match is the match). -/
def lookupKey {β : Type} (k : String) : List (String × β) → Option β
  | [] => none
  | (k1, v) :: rest => if k1 = k then some v else lookupKey k rest

/-! ## Calendar dates, `NaiveDate::parse_from_str(_, "%Y-%m-%d")` -/

/-- A proleptic Gregorian calendar date as chrono's `NaiveDate` exposes it. -/
structure Date where
  year : Int
  month : Nat
  day : Nat
deriving DecidableEq

/-- Gregorian leap-year rule (chrono / proleptic Gregorian). -/
def isLeap (y : Int) : Bool :=
  y % 4 == 0 && (y % 100 != 0 || y % 400 == 0)

/-- Number of days of month `m` of year `y`. -/
def daysInMonth (y : Int) (m : Nat) : Nat :=
  if m = 2 then (if isLeap y then 29 else 28)
  else if m = 4 ∨ m = 6 ∨ m = 9 ∨ m = 11 then 30
  else 31

/-- Validity of a year/month/day triple as a chrono `NaiveDate`:
calendar-valid and within chrono's supported year range
`MIN_YEAR = -262144 ..= MAX_YEAR = 262143`. -/
def validYmd (y : Int) (m d : Nat) : Bool :=
  decide (-262144 ≤ y) && decide (y ≤ 262143) &&
  decide (1 ≤ m) && decide (m ≤ 12) &&
  decide (1 ≤ d) && decide (d ≤ daysInMonth y m)

/-- Days since 1970-01-01 of a date (civil-from-days inverse, the standard
era-based formula).  `(d_end - d_start).num_days()` in chrono equals the
difference of these day numbers.  Lean's `Int` division is Euclidean, which
for the positive divisors used here is floor division. -/
def toDayNumber (dt : Date) : Int :=
  let y : Int := if dt.month ≤ 2 then dt.year - 1 else dt.year
  let era : Int := y / 400
  let yoe : Int := y - era * 400
  let mp : Nat := if dt.month ≤ 2 then dt.month + 9 else dt.month - 3
  let doy : Nat := (153 * mp + 2) / 5 + dt.day - 1
  let doe : Int := yoe * 365 + yoe / 4 - yoe / 100 + (doy : Int)
  era * 146097 + doe - 719468

/-- Drop leading whitespace; chrono trims whitespace before each numeric
field of the format string. -/
def skipWs (cs : List Char) : List Char := cs.dropWhile (fun c => c.isWhitespace)

/-- Take up to `n` leading decimal digits (maximal munch). -/
def takeUpToDigits : Nat → List Char → (List Char × List Char)
  | 0, cs => ([], cs)
  | _ + 1, [] => ([], [])
  | n + 1, c :: cs =>
    if c.isDigit then
      let (ds, rest) := takeUpToDigits n cs
      (c :: ds, rest)
    else ([], c :: cs)

/-- Decimal value of a digit string. -/
def digitsToNat (ds : List Char) : Nat :=
  ds.foldl (fun a c => a * 10 + (c.toNat - 48)) 0

/-- chrono's numeric scan for `%Y`: optional whitespace, then either an
explicit sign followed by any number of digits, or (with no sign) at most 4
digits.  (chrono `format/parse.rs`: "if there is no explicit sign, we respect
the original width".)  Overflow past `i64` makes chrono fail; in the model the
unbounded value simply fails the later `validYmd` range check, with the same
net result. -/
def scanYear (cs : List Char) : Option (Int × List Char) :=
  let cs := skipWs cs
  match cs with
  | '-' :: rest =>
    let (ds, r) := takeUpToDigits rest.length rest
    if ds.isEmpty then none else some (-(digitsToNat ds : Int), r)
  | '+' :: rest =>
    let (ds, r) := takeUpToDigits rest.length rest
    if ds.isEmpty then none else some ((digitsToNat ds : Int), r)
  | _ =>
    let (ds, r) := takeUpToDigits 4 cs
    if ds.isEmpty then none else some ((digitsToNat ds : Int), r)

/-- chrono's numeric scan for `%m` and `%d`: optional whitespace then 1 or 2
digits. -/
def scanNum2 (cs : List Char) : Option (Nat × List Char) :=
  let cs := skipWs cs
  let (ds, r) := takeUpToDigits 2 cs
  if ds.isEmpty then none else some (digitsToNat ds, r)

/-- `NaiveDate::parse_from_str(s, "%Y-%m-%d")`: year, literal `-`, month,
literal `-`, day, end of input, then calendar validity. -/
def parseDate (s : String) : Option Date :=
  match scanYear s.data with
  | none => none
  | some (y, r1) =>
    match r1 with
    | '-' :: r2 =>
      match scanNum2 r2 with
      | none => none
      | some (m, r3) =>
        match r3 with
        | '-' :: r4 =>
          match scanNum2 r4 with
          | none => none
          | some (d, r5) =>
            if r5.isEmpty && validYmd y m d then some ⟨y, m, d⟩ else none
        | _ => none
    | _ => none

/-! ## Period classification (the body of the innermost loop of `main`) -/

/-- Rust `f64::abs` on the rational model of the finite values involved. -/
def qabs (v : ℚ) : ℚ := if v < 0 then -v else v

/-- Rust's `d_end.year() as u16`: truncating cast of the `i32` year to `u16`,
i.e. reduction modulo `2^16` (Lean's `%` on `Int` is `emod`, whose result is
non-negative, matching the unsigned cast). -/
def yearToU16 (y : Int) : Nat := (y % 65536).toNat

/-- Classification of one `FactUnit` as in `main.rs` lines 99-129: require a
present `val` and a parseable `end`; for a FLOW metric (`is_instant = false`)
additionally require a parseable `start` and a duration strictly between 350
and 380 days; the fiscal year is `d_end.year() as u16`. -/
def classifyUnit (is_instant : Bool) (u : FactUnit) : Option (Nat × ℚ) :=
  match u.val with
  | none => none
  | some val =>
    match u.end_ with
    | none => none
    | some end_s =>
      match parseDate end_s with
      | none => none
      | some d_end =>
        if !is_instant then
          match u.start with
          | none => none
          | some start_s =>
            match parseDate start_s with
            | none => none
            | some d_start =>
              let duration_days := toDayNumber d_end - toDayNumber d_start
              if duration_days > 350 ∧ duration_days < 380 then
                some (yearToU16 d_end.year, val)
              else none
        else
          some (yearToU16 d_end.year, val)

/-! ## Extraction (`main.rs` lines 92-133) -/

/-- Observations contributed by one tag: all unit buckets of the tag's
`FactData`, every unit, classified; a tag absent from the document
contributes nothing. -/
def extractTag (gaap : Gaap) (is_instant : Bool) (tag : String) : List (Nat × ℚ) :=
  match lookupKey tag gaap with
  | none => []
  | some data =>
    (data.units.map (fun p => p.2.filterMap (classifyUnit is_instant))).flatten

/-- `extracted_data`: the pool of classified observations over all alias
tags of a metric, in tag order then unit-bucket order then document order. -/
def extracted_data (gaap : Gaap) (tags : List String) (is_instant : Bool) :
    List (Nat × ℚ) :=
  (tags.map (extractTag gaap is_instant)).flatten

/-! ## Year reconciliation (`main.rs` lines 138-147) -/

/-- The Rust `unique_map.entry(fy).or_insert(val)` followed by
`if val.abs() > entry.abs() { *entry = val }`, on the association-list model
of `HashMap<u16, f64>`: a fresh key is inserted with `val`; an existing
entry is replaced only when `val` has strictly greater absolute value. -/
def updateEntry : List (Nat × ℚ) → Nat → ℚ → List (Nat × ℚ)
  | [], fy, val => [(fy, val)]
  | (k, v) :: rest, fy, val =>
    if k = fy then (k, if qabs val > qabs v then val else v) :: rest
    else (k, v) :: updateEntry rest fy val

/-- Lookup in the reconciliation map (`Nat` keys). -/
def lookupYear (y : Nat) : List (Nat × ℚ) → Option ℚ
  | [] => none
  | (k, v) :: rest => if k = y then some v else lookupYear y rest

/-- `unique_map` after the deduplication loop over `extracted_data`. -/
def unique_map (l : List (Nat × ℚ)) : List (Nat × ℚ) :=
  l.foldl (fun m p => updateEntry m p.1 p.2) []

/-- Insertion of one pair into a key-sorted list, the auxiliary step of the
sort modelling `final_vec.sort_by_key(|k| k.0)`. -/
def insertByKey (p : Nat × ℚ) : List (Nat × ℚ) → List (Nat × ℚ)
  | [] => [p]
  | q :: rest => if p.1 ≤ q.1 then p :: q :: rest else q :: insertByKey p rest

/-- Stable sort by fiscal-year key, modelling Rust's (stable)
`final_vec.sort_by_key(|k| k.0)`.  The reconciliation map's keys are pairwise
distinct, so every sort by key — Rust's merge sort on any `into_iter` order
as well as this insertion sort — produces the one key-ordered list. -/
def sortByKey : List (Nat × ℚ) → List (Nat × ℚ)
  | [] => []
  | p :: rest => insertByKey p (sortByKey rest)

/-- `final_vec`: the map's pairs sorted by fiscal year
(`final_vec.sort_by_key(|k| k.0)`). -/
def final_vec (extracted : List (Nat × ℚ)) : List (Nat × ℚ) :=
  sortByKey (unique_map extracted)

/-- The whole per-metric pipeline: extract, classify, reconcile, sort. -/
def processMetric (gaap : Gaap) (tags : List String) (is_instant : Bool) :
    List (Nat × ℚ) :=
  final_vec (extracted_data gaap tags is_instant)

/-! ## Analysis vocabulary for the reconciler -/

/-- The winner-update step of the reconciliation loop: keep `acc` unless the
new value has strictly greater absolute value. -/
def pickAbs (acc v : ℚ) : ℚ := if qabs v > qabs acc then v else acc

/-- The reconciled value of one year's group of values, in iteration order:
the first value seeded, later values replacing it only on strictly greater
absolute value. -/
def selectVal : List ℚ → Option ℚ
  | [] => none
  | h :: t => some (t.foldl pickAbs h)

/-- The greatest absolute value occurring in a list (0 for the empty list). -/
def maxAbsOf : List ℚ → ℚ
  | [] => 0
  | v :: t => max (qabs v) (maxAbsOf t)

/-- Stated from the specification's words: the single value of greatest
absolute magnitude in the group, the first-seen one on ties of magnitude. -/
def firstMaxAbs (l : List ℚ) : Option ℚ :=
  l.find? (fun v => decide (maxAbsOf l ≤ qabs v))

/-- The values a pool of classified observations carries for fiscal year
`y`, in pool order. -/
def valuesForYear (y : Nat) (pool : List (Nat × ℚ)) : List ℚ :=
  (pool.filter (fun p => decide (p.1 = y))).map Prod.snd

/-- Intermediate-state description used to reason about the reconciliation
fold: the value the map holds for a year after also processing `vs`. -/
def combinePool : Option ℚ → List ℚ → Option ℚ
  | none, vs => selectVal vs
  | some a, vs => some (vs.foldl pickAbs a)

/-- Pairwise-distinct fiscal-year keys. -/
def NodupKeys (m : List (Nat × ℚ)) : Prop :=
  m.Pairwise (fun p q => p.1 ≠ q.1)

/-- Strictly increasing fiscal-year keys. -/
def StrictSortedKeys (m : List (Nat × ℚ)) : Prop :=
  m.Pairwise (fun p q => p.1 < q.1)

/-- No tie-break dependence: no two distinct values of equal absolute
magnitude are pooled for the same fiscal year. -/
def noTiesPool (pool : List (Nat × ℚ)) : Prop :=
  pool.Pairwise (fun p q => p.1 = q.1 → p.2 = q.2 ∨ qabs p.2 ≠ qabs q.2)

instance (pool : List (Nat × ℚ)) : Decidable (noTiesPool pool) :=
  List.instDecidablePairwise pool

/-! ## Catalog and report assembly (`main.rs` lines 71-158) -/

/-- `metrics_config`: the static catalog of `main.rs`
(name, alias tags, `is_instant`). -/
def metrics_config : List (String × List String × Bool) :=
  [ ("Revenue", ["Revenues", "SalesRevenueNet",
      "RevenueFromContractWithCustomerExcludingAssessedTax",
      "SalesRevenueGoodsNet"], false),
    ("Net Income", ["NetIncomeLoss", "ProfitLoss",
      "NetIncomeLossAvailableToCommonStockholdersBasic"], false),
    ("Operating Income (EBIT)", ["OperatingIncomeLoss"], false),
    ("EPS Diluted", ["EarningsPerShareDiluted",
      "EarningsPerShareBasicAndDiluted"], false),
    ("Operating Cash Flow",
      ["NetCashProvidedByUsedInOperatingActivities"], false),
    ("CapEx", ["PaymentsToAcquirePropertyPlantAndEquipment",
      "PaymentsToAcquireProductiveAssets"], false),
    ("SBC", ["ShareBasedCompensation",
      "EmployeeServiceShareBasedCompensationNonvestedAwardsTotalCompensationCostNotYetRecognized",
      "ShareBasedCompensationArrangementByShareBasedPaymentAwardEquityInstrumentsOtherThanOptionsVestedInPeriodTotalFairValue"],
      false),
    ("Total Equity", ["StockholdersEquity",
      "StockholdersEquityIncludingPortionAttributableToNoncontrollingInterest"],
      true),
    ("Cash & Equiv.", ["CashAndCashEquivalentsAtCarryingValue",
      "CashCashEquivalentsAndShortTermInvestments"], true),
    ("Long Term Debt", ["LongTermDebt", "LongTermDebtNoncurrent"], true),
    ("Shares Outstanding", ["CommonStockSharesOutstanding",
      "WeightedAverageNumberOfDilutedSharesOutstanding",
      "WeightedAverageNumberOfSharesOutstandingBasicAndDiluted"], true) ]

/-- The `results` map: built only under `if let Some(gaap) = facts.facts.us_gaap`;
when `us_gaap` is `None` the loop never runs and `results` stays empty. -/
def buildResults (usGaap : Option Gaap) : List (String × List (Nat × ℚ)) :=
  match usGaap with
  | none => []
  | some gaap =>
    metrics_config.map (fun cfg => (cfg.1, processMetric gaap cfg.2.1 cfg.2.2))

/-- The emitted report (the `serde_json::json!` record of line 153). -/
structure Report where
  ticker : String
  cik : Nat
  name : String
  financials : List (String × List (Nat × ℚ))
deriving DecidableEq

/-- `target_cik` resolution (`main.rs` lines 55-61): starts at 0, takes the
first entry whose ticker matches, models the `HashMap` iteration order of
`mapping_resp` by the list order. -/
def resolveCik (mapping : List TickerEntry) (target_ticker : String) : Nat :=
  match mapping with
  | [] => 0
  | e :: rest => if e.ticker = target_ticker then e.cik_str else resolveCik rest target_ticker

/-- `args[1].to_uppercase()`: Rust's Unicode uppercasing agrees with
per-character ASCII uppercasing on the ASCII ticker symbols involved. -/
def to_uppercase (s : String) : String := ⟨s.data.map Char.toUpper⟩

/-- The whole of `main` after the two fetches succeed: resolve the cik; on
`target_cik == 0` return `Ok(())` silently (`none`, modelling the silent
`return Ok(())` with no printed report); otherwise build and print the
report. -/
def runMain (mapping : List TickerEntry) (arg : String) (facts : CompanyFacts) :
    Option Report :=
  let target_ticker := to_uppercase arg
  let target_cik := resolveCik mapping target_ticker
  if target_cik = 0 then none
  else some { ticker := target_ticker, cik := target_cik,
              name := facts.entityName,
              financials := buildResults facts.facts.us_gaap }

/-! ## Concrete inputs used in closed statements -/

/-- The alias tags of the catalog's "Revenue" metric. -/
def revenueTags : List String :=
  ["Revenues", "SalesRevenueNet",
   "RevenueFromContractWithCustomerExcludingAssessedTax", "SalesRevenueGoodsNet"]

/-- An annual FLOW observation of value 100 over 2020 (365 days). -/
def obsPos : FactUnit := ⟨some 100, none, none, some "2020-01-01", some "2020-12-31"⟩

/-- An annual FLOW observation of value -100 over 2020 (365 days). -/
def obsNeg : FactUnit := ⟨some (-100), none, none, some "2020-01-01", some "2020-12-31"⟩

/-- An INSTANT observation of value 100 dated 2020-12-31. -/
def obsShares : FactUnit := ⟨some 100, none, none, none, some "2020-12-31"⟩

/-- An INSTANT observation of value -100 dated 2020-12-31. -/
def obsSharesNeg : FactUnit := ⟨some (-100), none, none, none, some "2020-12-31"⟩

/-- A document holding two annual Revenue observations (years 2019 and 2020). -/
def docTwoYears : Gaap :=
  [("Revenues", ⟨[("USD",
      [⟨some 1000, none, none, some "2019-01-01", some "2019-12-31"⟩,
       ⟨some 1200, none, none, some "2020-01-01", some "2020-12-30"⟩])]⟩)]

/-- The value-100 observation tagged with the first Revenue alias and the
value--100 observation tagged with the second alias. -/
def docTagA : Gaap :=
  [("Revenues", ⟨[("USD", [obsPos])]⟩),
   ("SalesRevenueNet", ⟨[("USD", [obsNeg])]⟩)]

/-- The same document as `docTagA` except that the value-100 observation is
tagged with the second Revenue alias instead of the first (appended after the
bucket's existing observation, i.e. later in document order). -/
def docTagB : Gaap :=
  [("Revenues", ⟨[("USD", [])]⟩),
   ("SalesRevenueNet", ⟨[("USD", [obsNeg, obsPos])]⟩)]

/-- A single observation tagged with the first Revenue alias. -/
def docSingleA : Gaap :=
  [("Revenues", ⟨[("USD", [obsPos])]⟩), ("SalesRevenueNet", ⟨[("USD", [])]⟩)]

/-- The same single observation tagged with the second Revenue alias. -/
def docSingleB : Gaap :=
  [("Revenues", ⟨[("USD", [])]⟩), ("SalesRevenueNet", ⟨[("USD", [obsPos])]⟩)]

/-- Two equal-magnitude opposite-sign INSTANT observations of one shares tag,
in two unit buckets, bucket order as one run's `HashMap` iteration yields it. -/
def docOrder1 : Gaap :=
  [("CommonStockSharesOutstanding",
    ⟨[("shares", [obsShares]), ("USD", [obsSharesNeg])]⟩)]

/-- The same unit buckets as `docOrder1` in the opposite iteration order, as
another run's `HashMap` iteration may yield them. -/
def docOrder2 : Gaap :=
  [("CommonStockSharesOutstanding",
    ⟨[("USD", [obsSharesNeg]), ("shares", [obsShares])]⟩)]

/-- One shares observation, bucket order one way. -/
def docNT1 : Gaap :=
  [("CommonStockSharesOutstanding", ⟨[("shares", [obsShares]), ("USD", [])]⟩)]

/-- The same buckets as `docNT1`, iterated in the opposite order. -/
def docNT2 : Gaap :=
  [("CommonStockSharesOutstanding", ⟨[("USD", []), ("shares", [obsShares])]⟩)]

/-- A company-facts value with no concepts section. -/
def factsEmpty : CompanyFacts := ⟨"Example Corp", ⟨none⟩⟩

/-! ## Reconciler lemmas -/

theorem qabs_nonneg (v : ℚ) : 0 ≤ qabs v := by
  unfold qabs; split <;> linarith

theorem le_maxAbsOf {x : ℚ} : ∀ {l : List ℚ}, x ∈ l → qabs x ≤ maxAbsOf l
  | v :: t, h => by
    rcases List.mem_cons.mp h with h | h
    · subst h; exact le_max_left _ _
    · exact le_trans (le_maxAbsOf h) (le_max_right _ _)

theorem qabs_pickAbs (a v : ℚ) : qabs (pickAbs a v) = max (qabs a) (qabs v) := by
  unfold pickAbs
  split <;> rename_i h
  · exact (max_eq_right (le_of_lt h)).symm
  · exact (max_eq_left (le_of_not_lt h)).symm

theorem foldl_pickAbs_find_aux :
    ∀ (t : List ℚ) (a A : ℚ), A = maxAbsOf (a :: t) →
      some (t.foldl pickAbs a) =
        (a :: t).find? (fun v => decide (A ≤ qabs v))
  | [], a, A, hA => by
    have h1 : A ≤ qabs a := by
      rw [hA, maxAbsOf, maxAbsOf, max_eq_left (qabs_nonneg a)]
    rw [List.foldl_nil, List.find?_cons_of_pos _ (by simpa using h1)]
  | v :: t, a, A, hA => by
    have hA' : A = maxAbsOf (pickAbs a v :: t) := by
      rw [hA, maxAbsOf, maxAbsOf, maxAbsOf, qabs_pickAbs, max_assoc]
    have key := foldl_pickAbs_find_aux t (pickAbs a v) A hA'
    have hAv : qabs v ≤ A := by
      rw [hA]; exact le_trans (le_max_left _ _) (le_max_right _ _)
    rw [List.foldl_cons]
    by_cases h : qabs v > qabs a
    · have hp : pickAbs a v = v := by unfold pickAbs; simp [h]
      have hna : ¬ (A ≤ qabs a) := fun hle => absurd h (not_lt.mpr (le_trans hAv hle))
      rw [List.find?_cons_of_neg _ (by simpa using hna)]
      rw [hp] at key ⊢
      exact key
    · have hp : pickAbs a v = a := by unfold pickAbs; simp [h]
      rw [hp] at key
      by_cases ha : A ≤ qabs a
      · rw [List.find?_cons_of_pos _ (by simpa using ha), hp]
        rw [List.find?_cons_of_pos _ (by simpa using ha)] at key
        exact key
      · have hv : ¬ (A ≤ qabs v) := fun hle =>
          ha (le_trans hle (le_of_not_lt h))
        rw [List.find?_cons_of_neg _ (by simpa using ha),
          List.find?_cons_of_neg _ (by simpa using hv), hp]
        rw [List.find?_cons_of_neg _ (by simpa using ha)] at key
        exact key

theorem selectVal_eq_firstMaxAbs (l : List ℚ) : selectVal l = firstMaxAbs l := by
  cases l with
  | nil => rfl
  | cons h t => exact foldl_pickAbs_find_aux t h _ rfl

theorem selectVal_mem {l : List ℚ} {w : ℚ} (h : selectVal l = some w) : w ∈ l := by
  rw [selectVal_eq_firstMaxAbs] at h
  exact List.mem_of_find?_eq_some h

theorem selectVal_max {l : List ℚ} {w : ℚ} (h : selectVal l = some w) :
    ∀ x ∈ l, qabs x ≤ qabs w := by
  rw [selectVal_eq_firstMaxAbs] at h
  have hw : maxAbsOf l ≤ qabs w := by simpa using List.find?_some h
  exact fun x hx => le_trans (le_maxAbsOf hx) hw

theorem selectVal_perm {l1 l2 : List ℚ} (h : l1.Perm l2)
    (hp : l1.Pairwise (fun a b => a = b ∨ qabs a ≠ qabs b)) :
    selectVal l1 = selectVal l2 := by
  cases l1 with
  | nil => rw [h.nil_eq.symm]
  | cons a1 t1 =>
    cases l2 with
    | nil => exact absurd h.symm.nil_eq (by simp)
    | cons a2 t2 =>
      obtain ⟨w1, hw1⟩ : ∃ w, selectVal (a1 :: t1) = some w := ⟨_, rfl⟩
      obtain ⟨w2, hw2⟩ : ∃ w, selectVal (a2 :: t2) = some w := ⟨_, rfl⟩
      rw [hw1, hw2]
      have hm1 : w1 ∈ a1 :: t1 := selectVal_mem hw1
      have hm2 : w2 ∈ a1 :: t1 := h.mem_iff.mpr (selectVal_mem hw2)
      have h12 : qabs w2 ≤ qabs w1 := selectVal_max hw1 _ hm2
      have h21 : qabs w1 ≤ qabs w2 :=
        selectVal_max hw2 _ (h.mem_iff.mp hm1)
      have heq : qabs w1 = qabs w2 := le_antisymm h21 h12
      by_cases hww : w1 = w2
      · rw [hww]
      · rcases hp.forall (fun x y hxy => hxy.imp Eq.symm Ne.symm) hm1 hm2 hww with
          h' | h'
        · rw [h']
        · exact absurd heq h'
theorem lookupYear_updateEntry_self (fy : Nat) (val : ℚ) :
    ∀ (m : List (Nat × ℚ)),
      lookupYear fy (updateEntry m fy val) =
        some (match lookupYear fy m with
              | none => val
              | some w => if qabs val > qabs w then val else w)
  | [] => by simp [updateEntry, lookupYear]
  | (k, v) :: rest => by
    by_cases hk : k = fy
    · subst hk
      simp [updateEntry, lookupYear]
    · simp only [updateEntry, if_neg hk, lookupYear, if_neg hk]
      exact lookupYear_updateEntry_self fy val rest

theorem lookupYear_updateEntry_ne {y fy : Nat} (hy : y ≠ fy) (val : ℚ) :
    ∀ (m : List (Nat × ℚ)),
      lookupYear y (updateEntry m fy val) = lookupYear y m
  | [] => by
    have hfy : ¬ (fy = y) := fun h => hy h.symm
    simp [updateEntry, lookupYear, hfy]
  | (k, v) :: rest => by
    by_cases hk : k = fy
    · subst hk
      have hk2 : ¬ (k = y) := fun h => hy h.symm
      simp [updateEntry, lookupYear, hk2]
    · simp only [updateEntry, if_neg hk, lookupYear]
      by_cases hky : k = y
      · simp [hky]
      · simp only [if_neg hky]
        exact lookupYear_updateEntry_ne hy val rest

theorem foldl_updateEntry_lookup (y : Nat) :
    ∀ (pool m : List (Nat × ℚ)),
      lookupYear y (pool.foldl (fun m p => updateEntry m p.1 p.2) m) =
        combinePool (lookupYear y m) (valuesForYear y pool)
  | [], m => by
    cases h : lookupYear y m <;> simp [valuesForYear, combinePool, h, selectVal]
  | (fy, v) :: rest, m => by
    rw [List.foldl_cons, foldl_updateEntry_lookup y rest (updateEntry m fy v)]
    by_cases hy : y = fy
    · subst hy
      rw [lookupYear_updateEntry_self y v m]
      cases h : lookupYear y m
      · simp [valuesForYear, combinePool, h, selectVal, pickAbs]
      · simp only [h, combinePool, valuesForYear, List.filter_cons,
          decide_eq_true_eq, if_pos rfl, List.map_cons, List.foldl_cons]
        rfl
    · rw [lookupYear_updateEntry_ne hy v m]
      have hfy : ¬ (fy = y) := fun h => hy h.symm
      simp [valuesForYear, List.filter_cons, hfy]

theorem lookupYear_unique_map (pool : List (Nat × ℚ)) (y : Nat) :
    lookupYear y (unique_map pool) = selectVal (valuesForYear y pool) := by
  have h := foldl_updateEntry_lookup y pool []
  simpa [unique_map, lookupYear, combinePool] using h

theorem fst_mem_updateEntry {q : Nat × ℚ} :
    ∀ {m : List (Nat × ℚ)} {fy : Nat} {val : ℚ},
      q ∈ updateEntry m fy val → q.1 = fy ∨ ∃ p ∈ m, q.1 = p.1
  | [], fy, val, h => by
    simp only [updateEntry, List.mem_singleton] at h
    subst h
    exact Or.inl rfl
  | (k, v) :: rest, fy, val, h => by
    by_cases hk : k = fy
    · subst hk
      simp [updateEntry] at h
      rcases h with h1 | h2
      · subst h1
        exact Or.inl rfl
      · exact Or.inr ⟨q, List.mem_cons_of_mem _ h2, rfl⟩
    · simp only [updateEntry, if_neg hk, List.mem_cons] at h
      rcases h with h1 | h2
      · subst h1
        exact Or.inr ⟨(k, v), List.mem_cons_self _ _, rfl⟩
      · rcases fst_mem_updateEntry h2 with h' | ⟨p, hp, e⟩
        · exact Or.inl h'
        · exact Or.inr ⟨p, List.mem_cons_of_mem _ hp, e⟩

theorem nodupKeys_updateEntry {fy : Nat} {val : ℚ} :
    ∀ {m : List (Nat × ℚ)}, NodupKeys m → NodupKeys (updateEntry m fy val)
  | [], _ => List.pairwise_singleton _ _
  | (k, v) :: rest, h => by
    rcases List.pairwise_cons.mp h with ⟨hhead, htail⟩
    by_cases hk : k = fy
    · subst hk
      simp only [NodupKeys, updateEntry, if_pos rfl]
      exact List.pairwise_cons.mpr ⟨hhead, htail⟩
    · simp only [NodupKeys, updateEntry, if_neg hk]
      refine List.pairwise_cons.mpr ⟨fun q hq => ?_, nodupKeys_updateEntry htail⟩
      rcases fst_mem_updateEntry hq with h' | ⟨p, hp, e⟩
      · rw [h']; exact hk
      · rw [e]; exact hhead p hp

theorem nodupKeys_foldl_updateEntry :
    ∀ (pool m : List (Nat × ℚ)), NodupKeys m →
      NodupKeys (pool.foldl (fun m p => updateEntry m p.1 p.2) m)
  | [], _, h => h
  | _ :: rest, _, h =>
    nodupKeys_foldl_updateEntry rest _ (nodupKeys_updateEntry h)

theorem nodupKeys_unique_map (pool : List (Nat × ℚ)) : NodupKeys (unique_map pool) :=
  nodupKeys_foldl_updateEntry pool [] List.Pairwise.nil

theorem mem_of_lookupYear {y : Nat} {v : ℚ} :
    ∀ {m : List (Nat × ℚ)}, lookupYear y m = some v → (y, v) ∈ m
  | [], h => by simp [lookupYear] at h
  | (k, w) :: rest, h => by
    by_cases hk : k = y
    · subst hk
      simp [lookupYear] at h
      subst h
      exact List.mem_cons_self _ _
    · simp only [lookupYear, if_neg hk] at h
      exact List.mem_cons_of_mem _ (mem_of_lookupYear h)

theorem lookupYear_of_mem_nodup {y : Nat} {v : ℚ} :
    ∀ {m : List (Nat × ℚ)}, NodupKeys m → (y, v) ∈ m → lookupYear y m = some v
  | [], _, hm => absurd hm (List.not_mem_nil _)
  | (k, w) :: rest, h, hm => by
    rcases List.pairwise_cons.mp h with ⟨hhead, htail⟩
    rcases List.mem_cons.mp hm with he | hm'
    · rw [← he]
      simp [lookupYear]
    · by_cases hk : k = y
      · exact absurd hk (hhead _ hm')
      · simp only [lookupYear, if_neg hk]
        exact lookupYear_of_mem_nodup htail hm'

theorem lookupYear_none_iff {y : Nat} :
    ∀ {m : List (Nat × ℚ)}, lookupYear y m = none ↔ ∀ p ∈ m, p.1 ≠ y
  | [] => by simp [lookupYear]
  | (k, w) :: rest => by
    by_cases hk : k = y
    · subst hk
      simp [lookupYear]
    · simp only [lookupYear, if_neg hk, List.mem_cons]
      rw [lookupYear_none_iff]
      constructor
      · rintro h p (rfl | hp)
        · exact hk
        · exact h p hp
      · intro h p hp
        exact h p (Or.inr hp)

theorem lookupYear_perm {m1 m2 : List (Nat × ℚ)} (h : m1.Perm m2)
    (h1 : NodupKeys m1) (y : Nat) :
    lookupYear y m1 = lookupYear y m2 := by
  have h2 : NodupKeys m2 :=
    (h.pairwise_iff (fun hx => Ne.symm hx)).mp h1
  cases hl : lookupYear y m1 with
  | none =>
    rw [lookupYear_none_iff] at hl
    exact (lookupYear_none_iff.mpr (fun p hp => hl p (h.mem_iff.mpr hp))).symm
  | some v =>
    exact (lookupYear_of_mem_nodup h2 (h.mem_iff.mp (mem_of_lookupYear hl))).symm
theorem insertByKey_perm (p : Nat × ℚ) :
    ∀ (l : List (Nat × ℚ)), (insertByKey p l).Perm (p :: l)
  | [] => List.Perm.refl _
  | q :: rest => by
    simp only [insertByKey]
    split
    · exact List.Perm.refl _
    · exact ((insertByKey_perm p rest).cons q).trans (List.Perm.swap p q rest)

theorem sortByKey_perm : ∀ (l : List (Nat × ℚ)), (sortByKey l).Perm l
  | [] => List.Perm.refl _
  | p :: rest =>
    (insertByKey_perm p (sortByKey rest)).trans ((sortByKey_perm rest).cons p)

theorem sortedKeys_insertByKey (p : Nat × ℚ) :
    ∀ {l : List (Nat × ℚ)}, l.Pairwise (fun a b => a.1 ≤ b.1) →
      (insertByKey p l).Pairwise (fun a b => a.1 ≤ b.1)
  | [], _ => List.pairwise_singleton _ _
  | q :: rest, h => by
    rcases List.pairwise_cons.mp h with ⟨hq, hrest⟩
    simp only [insertByKey]
    split <;> rename_i hpq
    · refine List.pairwise_cons.mpr ⟨fun x hx => ?_, h⟩
      rcases List.mem_cons.mp hx with h1 | h2
      · rw [h1]; exact hpq
      · exact le_trans hpq (hq x h2)
    · refine List.pairwise_cons.mpr ⟨fun x hx => ?_, sortedKeys_insertByKey p hrest⟩
      rcases List.mem_cons.mp ((insertByKey_perm p rest).mem_iff.mp hx) with h1 | h2
      · rw [h1]; omega
      · exact hq x h2

theorem sortedKeys_sortByKey :
    ∀ (l : List (Nat × ℚ)), (sortByKey l).Pairwise (fun a b => a.1 ≤ b.1)
  | [] => List.Pairwise.nil
  | p :: rest => sortedKeys_insertByKey p (sortedKeys_sortByKey rest)

theorem final_vec_perm (pool : List (Nat × ℚ)) :
    (final_vec pool).Perm (unique_map pool) :=
  sortByKey_perm _

theorem nodupKeys_final_vec (pool : List (Nat × ℚ)) : NodupKeys (final_vec pool) :=
  ((final_vec_perm pool).pairwise_iff (fun hx => Ne.symm hx)).mpr
    (nodupKeys_unique_map pool)

theorem strictSortedKeys_final_vec (pool : List (Nat × ℚ)) :
    StrictSortedKeys (final_vec pool) := by
  have hs := sortedKeys_sortByKey (unique_map pool)
  have hn := nodupKeys_final_vec pool
  exact (hs.and hn).imp (fun hab => lt_of_le_of_ne hab.1 hab.2)

theorem lookupYear_final_vec (pool : List (Nat × ℚ)) (y : Nat) :
    lookupYear y (final_vec pool) = lookupYear y (unique_map pool) :=
  lookupYear_perm (final_vec_perm pool) (nodupKeys_final_vec pool) y

theorem eq_of_strictSorted_lookupYear :
    ∀ (m1 m2 : List (Nat × ℚ)), StrictSortedKeys m1 → StrictSortedKeys m2 →
      (∀ y, lookupYear y m1 = lookupYear y m2) → m1 = m2
  | [], [], _, _, _ => rfl
  | [], (k2, v2) :: t2, _, _, hl => by
    have h := hl k2
    simp [lookupYear] at h
  | (k1, v1) :: t1, [], _, _, hl => by
    have h := hl k1
    simp [lookupYear] at h
  | (k1, v1) :: t1, (k2, v2) :: t2, h1, h2, hl => by
    rcases List.pairwise_cons.mp h1 with ⟨hh1, ht1⟩
    rcases List.pairwise_cons.mp h2 with ⟨hh2, ht2⟩
    have e1 : lookupYear k1 ((k1, v1) :: t1) = some v1 := by simp [lookupYear]
    have e2 : lookupYear k2 ((k2, v2) :: t2) = some v2 := by simp [lookupYear]
    have hk : k1 = k2 := by
      by_contra hne
      rcases Nat.lt_or_ge k1 k2 with hlt | hge
      · have g := hl k1
        rw [e1] at g
        have : lookupYear k1 ((k2, v2) :: t2) = none := by
          rw [lookupYear, if_neg (by omega)]
          exact lookupYear_none_iff.mpr (fun p hp => by have := hh2 p hp; omega)
        rw [this] at g
        exact Option.noConfusion g
      · have hgt : k2 < k1 := by omega
        have g := hl k2
        rw [e2] at g
        have : lookupYear k2 ((k1, v1) :: t1) = none := by
          rw [lookupYear, if_neg (by omega)]
          exact lookupYear_none_iff.mpr (fun p hp => by have := hh1 p hp; omega)
        rw [this] at g
        exact Option.noConfusion g.symm
    subst hk
    have hv : v1 = v2 := by
      have g := hl k1
      rw [e1, e2] at g
      exact Option.some_inj.mp g
    subst hv
    have htails : t1 = t2 := by
      apply eq_of_strictSorted_lookupYear t1 t2 ht1 ht2
      intro y
      by_cases hy : y = k1
      · subst hy
        rw [lookupYear_none_iff.mpr (fun p hp => by have := hh1 p hp; omega),
          lookupYear_none_iff.mpr (fun p hp => by have := hh2 p hp; omega)]
      · have g := hl y
        rw [lookupYear, if_neg (fun h : k1 = y => hy h.symm)] at g
        rw [lookupYear, if_neg (fun h : k1 = y => hy h.symm)] at g
        exact g
    rw [htails]

theorem noTies_valuesForYear {pool : List (Nat × ℚ)} (h : noTiesPool pool) (y : Nat) :
    (valuesForYear y pool).Pairwise (fun a b => a = b ∨ qabs a ≠ qabs b) := by
  unfold valuesForYear
  rw [List.pairwise_map]
  have hf : (pool.filter (fun p => decide (p.1 = y))).Pairwise
      (fun p q => p.1 = q.1 → p.2 = q.2 ∨ qabs p.2 ≠ qabs q.2) :=
    List.Pairwise.filter _ h
  refine hf.imp_of_mem (fun ha hb hr => ?_)
  have ha1 := of_decide_eq_true (List.mem_filter.mp ha).2
  have hb1 := of_decide_eq_true (List.mem_filter.mp hb).2
  exact hr (by omega)

theorem valuesForYear_perm {p1 p2 : List (Nat × ℚ)} (h : p1.Perm p2) (y : Nat) :
    (valuesForYear y p1).Perm (valuesForYear y p2) :=
  (h.filter _).map _

theorem final_vec_eq_of_perm {p1 p2 : List (Nat × ℚ)} (h : p1.Perm p2)
    (hnt : noTiesPool p1) : final_vec p1 = final_vec p2 := by
  apply eq_of_strictSorted_lookupYear _ _ (strictSortedKeys_final_vec p1)
    (strictSortedKeys_final_vec p2)
  intro y
  rw [lookupYear_final_vec, lookupYear_final_vec, lookupYear_unique_map,
    lookupYear_unique_map]
  exact selectVal_perm (valuesForYear_perm h y) (noTies_valuesForYear hnt y)
theorem mem_extracted_data {gaap : Gaap} {tags : List String} {inst : Bool}
    {y : Nat} {v : ℚ} :
    (y, v) ∈ extracted_data gaap tags inst ↔
      ∃ tag ∈ tags, ∃ fd, lookupKey tag gaap = some fd ∧
        ∃ b ∈ fd.units, ∃ u ∈ b.2, classifyUnit inst u = some (y, v) := by
  unfold extracted_data
  rw [List.mem_flatten]
  constructor
  · rintro ⟨l, hl, hmem⟩
    rcases List.mem_map.mp hl with ⟨tag, htag, he⟩
    rw [← he] at hmem
    unfold extractTag at hmem
    cases hfd : lookupKey tag gaap with
    | none => rw [hfd] at hmem; simp at hmem
    | some fd =>
      rw [hfd] at hmem
      rcases List.mem_flatten.mp hmem with ⟨l2, hl2, hmem2⟩
      rcases List.mem_map.mp hl2 with ⟨b, hb, he2⟩
      rw [← he2] at hmem2
      rcases List.mem_filterMap.mp hmem2 with ⟨u, hu, hcl⟩
      exact ⟨tag, htag, fd, hfd, b, hb, u, hu, hcl⟩
  · rintro ⟨tag, htag, fd, hfd, b, hb, u, hu, hcl⟩
    refine ⟨extractTag gaap inst tag, List.mem_map.mpr ⟨tag, htag, rfl⟩, ?_⟩
    unfold extractTag
    rw [hfd]
    exact List.mem_flatten.mpr ⟨_, List.mem_map.mpr ⟨b, hb, rfl⟩,
      List.mem_filterMap.mpr ⟨u, hu, hcl⟩⟩

theorem classifyUnit_flow_eq {u : FactUnit} {v : ℚ} {es ss : String} {de ds : Date}
    (hv : u.val = some v) (he : u.end_ = some es) (hs : u.start = some ss)
    (hpe : parseDate es = some de) (hps : parseDate ss = some ds) :
    classifyUnit false u =
      if 350 < toDayNumber de - toDayNumber ds ∧
          toDayNumber de - toDayNumber ds < 380
      then some (yearToU16 de.year, v) else none := by
  unfold classifyUnit
  rw [hv, he]
  dsimp only
  rw [hpe, hs]
  dsimp only
  rw [hps]
  rfl

theorem classifyUnit_instant_eq {u : FactUnit} {v : ℚ} {es : String} {de : Date}
    (hv : u.val = some v) (he : u.end_ = some es) (hpe : parseDate es = some de) :
    classifyUnit true u = some (yearToU16 de.year, v) := by
  unfold classifyUnit
  rw [hv, he]
  dsimp only
  rw [hpe]
  rfl

theorem classifyUnit_val_none {inst : Bool} {u : FactUnit} (h : u.val = none) :
    classifyUnit inst u = none := by
  unfold classifyUnit
  rw [h]

theorem classifyUnit_end_none {inst : Bool} {u : FactUnit} {v : ℚ}
    (hv : u.val = some v) (h : u.end_ = none) :
    classifyUnit inst u = none := by
  unfold classifyUnit
  rw [hv]
  dsimp only
  rw [h]

theorem classifyUnit_end_unparseable {inst : Bool} {u : FactUnit} {v : ℚ}
    {es : String} (hv : u.val = some v) (he : u.end_ = some es)
    (hp : parseDate es = none) :
    classifyUnit inst u = none := by
  unfold classifyUnit
  rw [hv]
  dsimp only
  rw [he]
  dsimp only
  rw [hp]

theorem classifyUnit_flow_start_none {u : FactUnit} {v : ℚ} {es : String}
    {de : Date} (hv : u.val = some v) (he : u.end_ = some es)
    (hpe : parseDate es = some de) (hs : u.start = none) :
    classifyUnit false u = none := by
  unfold classifyUnit
  rw [hv]
  dsimp only
  rw [he]
  dsimp only
  rw [hpe]
  dsimp only
  rw [hs]
  rfl

theorem classifyUnit_flow_start_unparseable {u : FactUnit} {v : ℚ} {es ss : String}
    {de : Date} (hv : u.val = some v) (he : u.end_ = some es)
    (hpe : parseDate es = some de) (hs : u.start = some ss)
    (hps : parseDate ss = none) :
    classifyUnit false u = none := by
  unfold classifyUnit
  rw [hv]
  dsimp only
  rw [he]
  dsimp only
  rw [hpe]
  dsimp only
  rw [hs]
  dsimp only
  rw [hps]
  rfl

theorem yearToU16_eq_of_range {y : Int} (h0 : 0 ≤ y) (h1 : y < 65536) :
    (yearToU16 y : Int) = y := by
  unfold yearToU16
  omega

theorem lookupKey_map_metrics {gaap : Gaap} :
    ∀ (cfgs : List (String × List String × Bool)) (name : String)
      (tags : List String) (inst : Bool),
      cfgs.Pairwise (fun a b => a.1 ≠ b.1) → (name, tags, inst) ∈ cfgs →
      lookupKey name
          (cfgs.map (fun cfg => (cfg.1, processMetric gaap cfg.2.1 cfg.2.2))) =
        some (processMetric gaap tags inst)
  | [], _, _, _, _, hm => absurd hm (List.not_mem_nil _)
  | cfg :: rest, name, tags, inst, hp, hm => by
    rcases List.pairwise_cons.mp hp with ⟨hhead, htail⟩
    rcases List.mem_cons.mp hm with he | hm'
    · rw [← he]
      simp [lookupKey]
    · have hne : ¬ (cfg.1 = name) := fun h => (hhead _ hm') (h.trans rfl)
      simp only [List.map_cons, lookupKey, if_neg hne]
      exact lookupKey_map_metrics rest name tags inst htail hm'

theorem flatten_nil_of_all_nil {α : Type} :
    ∀ {L : List (List α)}, (∀ l ∈ L, l = []) → L.flatten = []
  | [], _ => rfl
  | l :: rest, h => by
    rw [List.flatten_cons, h l (List.mem_cons_self _ _),
      flatten_nil_of_all_nil (fun x hx => h x (List.mem_cons_of_mem _ hx))]
    rfl

theorem extracted_data_nil {gaap : Gaap} {tags : List String} {inst : Bool}
    (h : ∀ tag ∈ tags, lookupKey tag gaap = none) :
    extracted_data gaap tags inst = [] := by
  unfold extracted_data
  apply flatten_nil_of_all_nil
  intro l hl
  rcases List.mem_map.mp hl with ⟨tag, htag, he⟩
  rw [← he]
  unfold extractTag
  rw [h tag htag]


/-! ## Claim theorems -/

/-- C1 (amended): a FLOW-kind observation whose value is present and whose
periodStart and periodEnd both parse as `%Y-%m-%d` dates is kept if and only
if the integer day difference periodEnd - periodStart is strictly greater
than 350 and strictly less than 380; when kept, the recorded fiscal year is
the calendar year of periodEnd reduced modulo 2^16 (the code casts the year
to `u16`), which equals the calendar year itself whenever that year lies in
`[0, 65536)` — in particular for all realistic filing dates. -/
theorem C1_flow_window (u : FactUnit) (v : ℚ) (es ss : String) (de ds : Date)
    (hv : u.val = some v) (he : u.end_ = some es) (hs : u.start = some ss)
    (hpe : parseDate es = some de) (hps : parseDate ss = some ds) :
    (classifyUnit false u =
      if 350 < toDayNumber de - toDayNumber ds ∧
          toDayNumber de - toDayNumber ds < 380
      then some (yearToU16 de.year, v) else none) ∧
    (0 ≤ de.year → de.year < 65536 → (yearToU16 de.year : Int) = de.year) :=
  ⟨classifyUnit_flow_eq hv he hs hpe hps, fun h0 h1 => yearToU16_eq_of_range h0 h1⟩

/-- Witness for C1: a 364-day period over 2019 is kept with fiscal year 2019. -/
theorem C1_flow_window_witness :
    classifyUnit false ⟨some 1000, none, none, some "2019-01-01", some "2019-12-31"⟩ =
      some (2019, 1000) := by
  have h := C1_flow_window
    ⟨some 1000, none, none, some "2019-01-01", some "2019-12-31"⟩
    1000 "2019-12-31" "2019-01-01" ⟨2019, 12, 31⟩ ⟨2019, 1, 1⟩
    rfl rfl rfl (by decide) (by decide)
  rw [h.1]
  decide

/-- C1 counterexample: `+70000-12-31` parses as a `%Y-%m-%d` date (chrono
accepts a signed year), the 366-day period `+69999-12-31 .. +70000-12-31`
lies inside the window and is kept, yet the recorded fiscal year is 4464 =
70000 mod 2^16, not the calendar year 70000 of periodEnd — refuting the
claim that the fiscal year of a kept observation is always the calendar year
of periodEnd. -/
theorem C1_year_wrap_counterexample :
    parseDate "+70000-12-31" = some ⟨70000, 12, 31⟩ ∧
    parseDate "+69999-12-31" = some ⟨69999, 12, 31⟩ ∧
    (350 < toDayNumber ⟨70000, 12, 31⟩ - toDayNumber ⟨69999, 12, 31⟩ ∧
      toDayNumber ⟨70000, 12, 31⟩ - toDayNumber ⟨69999, 12, 31⟩ < 380) ∧
    classifyUnit false
        ⟨some 1, none, none, some "+69999-12-31", some "+70000-12-31"⟩ =
      some (4464, 1) ∧
    (4464 : Int) ≠ 70000 := by decide

/-- C2: for every pool of classified observations and every fiscal year, the
reconciled series holds exactly the first-seen value of greatest absolute
magnitude among that year's pooled values (replacement happens only on a
strictly greater absolute value, so ties keep the first-seen value), and the
specification's two concrete reconciliations hold: {25, 100, -150} yields
-150 and {100, -100} in that order yields 100. -/
theorem C2_max_abs_reconcile :
    (∀ (pool : List (Nat × ℚ)) (y : Nat),
      lookupYear y (final_vec pool) = firstMaxAbs (valuesForYear y pool)) ∧
    final_vec [(2021, 25), (2021, 100), (2021, -150)] = [(2021, -150)] ∧
    final_vec [(2021, 100), (2021, -100)] = [(2021, 100)] := by
  refine ⟨fun pool y => ?_, by decide, by decide⟩
  rw [lookupYear_final_vec, lookupYear_unique_map, selectVal_eq_firstMaxAbs]

/-- C3 counterexample: "Revenue" is a catalog metric, yet with the concepts
section entirely absent (`us_gaap = None`) the output financials map is empty
and "Revenue" is a missing key — the `results.insert` loop is guarded by
`if let Some(gaap)`, so no metric key is ever inserted. -/
theorem C3_missing_key_counterexample :
    "Revenue" ∈ metrics_config.map (fun cfg => cfg.1) ∧
    lookupKey "Revenue" (buildResults none) = none := by decide

/-- C3 (amended): when the concepts section is present, every catalog metric
name is a key of the output financials map, mapping to its processed series —
an empty series (not an error) when no alias tag of the metric occurs in the
document; when the concepts section is entirely absent, the financials map is
empty, so every metric name is a missing key (still not an error). -/
theorem C3_metric_keys (gaap : Gaap) (name : String) (tags : List String)
    (inst : Bool) (h : (name, tags, inst) ∈ metrics_config) :
    lookupKey name (buildResults (some gaap)) =
      some (processMetric gaap tags inst) ∧
    ((∀ tag ∈ tags, lookupKey tag gaap = none) →
      processMetric gaap tags inst = []) ∧
    buildResults none = [] := by
  refine ⟨?_, ?_, rfl⟩
  · exact lookupKey_map_metrics metrics_config name tags inst (by decide) h
  · intro hnone
    unfold processMetric
    rw [extracted_data_nil hnone]
    rfl

/-- Witness for C3: a present but empty concepts section yields the key with
an empty series. -/
theorem C3_metric_keys_witness :
    lookupKey "Operating Income (EBIT)" (buildResults (some [])) = some [] := by
  have h := C3_metric_keys [] "Operating Income (EBIT)" ["OperatingIncomeLoss"]
    false (by decide)
  rw [h.1, h.2.1 (fun tag _ => rfl)]

/-- C4: every series of the output financials map is strictly increasing in
fiscal year, hence contains at most one point per fiscal year. -/
theorem C4_sorted_series (usGaap : Option Gaap) (name : String)
    (series : List (Nat × ℚ)) (h : (name, series) ∈ buildResults usGaap) :
    series.Pairwise (fun a b => a.1 < b.1) := by
  cases usGaap with
  | none => simp [buildResults] at h
  | some gaap =>
    rcases List.mem_map.mp h with ⟨cfg, _, he⟩
    injection he with e1 e2
    rw [← e2]
    exact strictSortedKeys_final_vec (extracted_data gaap cfg.2.1 cfg.2.2)

/-- Witness for C4: the two-year Revenue document yields the strictly
year-sorted series [(2019, 1000), (2020, 1200)]. -/
theorem C4_sorted_series_witness :
    List.Pairwise (fun a b : Nat × ℚ => a.1 < b.1)
      [(2019, (1000 : ℚ)), (2020, 1200)] :=
  C4_sorted_series (some docTwoYears) "Revenue" [(2019, 1000), (2020, 1200)]
    (by decide)

/-- C5: an observation of any kind is discarded when its value is absent,
its periodEnd is absent, or its periodEnd fails to parse; a FLOW-kind
observation is additionally discarded when its periodStart is absent or
fails to parse, even with a valid value and periodEnd. -/
theorem C5_discard_rules (inst : Bool) (u : FactUnit) :
    (u.val = none → classifyUnit inst u = none) ∧
    (u.end_ = none → classifyUnit inst u = none) ∧
    (∀ es, u.end_ = some es → parseDate es = none → classifyUnit inst u = none) ∧
    (u.start = none → classifyUnit false u = none) ∧
    (∀ ss, u.start = some ss → parseDate ss = none →
      classifyUnit false u = none) := by
  refine ⟨fun h => classifyUnit_val_none h, ?_, ?_, ?_, ?_⟩
  · intro h
    cases hv : u.val with
    | none => exact classifyUnit_val_none hv
    | some v => exact classifyUnit_end_none hv h
  · intro es he hp
    cases hv : u.val with
    | none => exact classifyUnit_val_none hv
    | some v => exact classifyUnit_end_unparseable hv he hp
  · intro h
    cases hv : u.val with
    | none => exact classifyUnit_val_none hv
    | some v =>
      cases hend : u.end_ with
      | none => exact classifyUnit_end_none hv hend
      | some es =>
        cases hpe : parseDate es with
        | none => exact classifyUnit_end_unparseable hv hend hpe
        | some de => exact classifyUnit_flow_start_none hv hend hpe h
  · intro ss hss hps
    cases hv : u.val with
    | none => exact classifyUnit_val_none hv
    | some v =>
      cases hend : u.end_ with
      | none => exact classifyUnit_end_none hv hend
      | some es =>
        cases hpe : parseDate es with
        | none => exact classifyUnit_end_unparseable hv hend hpe
        | some de => exact classifyUnit_flow_start_unparseable hv hend hpe hss hps

/-- Witness for C5: a fully absent observation is discarded; a FLOW
observation with valid value and periodEnd but absent or unparseable
periodStart is discarded. -/
theorem C5_discard_rules_witness :
    classifyUnit true ⟨none, none, none, none, none⟩ = none ∧
    classifyUnit false ⟨some 1, none, none, none, some "2019-12-31"⟩ = none ∧
    classifyUnit false ⟨some 1, none, none, some "not-a-date", some "2019-12-31"⟩ =
      none :=
  ⟨(C5_discard_rules true ⟨none, none, none, none, none⟩).1 rfl,
   (C5_discard_rules false ⟨some 1, none, none, none, some "2019-12-31"⟩).2.2.2.1 rfl,
   (C5_discard_rules false
      ⟨some 1, none, none, some "not-a-date", some "2019-12-31"⟩).2.2.2.2
     "not-a-date" rfl (by decide)⟩

/-- C6 (amended): an INSTANT-kind observation with a present value and a
parseable periodEnd is kept unconditionally — regardless of periodStart —
with fiscal year the calendar year of periodEnd reduced modulo 2^16 (the
`as u16` cast), which equals the calendar year whenever it lies in
`[0, 65536)`; e.g. periodEnd 2019-03-31 with no periodStart yields 2019. -/
theorem C6_instant_keep (u : FactUnit) (v : ℚ) (es : String) (de : Date)
    (hv : u.val = some v) (he : u.end_ = some es)
    (hpe : parseDate es = some de) :
    classifyUnit true u = some (yearToU16 de.year, v) ∧
    (0 ≤ de.year → de.year < 65536 → (yearToU16 de.year : Int) = de.year) :=
  ⟨classifyUnit_instant_eq hv he hpe, fun h0 h1 => yearToU16_eq_of_range h0 h1⟩

/-- Witness for C6: the specification's own example. -/
theorem C6_instant_keep_witness :
    classifyUnit true ⟨some 5, none, none, none, some "2019-03-31"⟩ =
      some (2019, 5) := by
  have h := C6_instant_keep ⟨some 5, none, none, none, some "2019-03-31"⟩ 5
    "2019-03-31" ⟨2019, 3, 31⟩ rfl rfl (by decide)
  rw [h.1]
  decide

/-- C6 counterexample: an INSTANT observation with periodEnd `+70000-03-31`
(a string chrono parses) is kept with fiscal year 4464 = 70000 mod 2^16
rather than the calendar year 70000 of its periodEnd. -/
theorem C6_year_wrap_counterexample :
    parseDate "+70000-03-31" = some ⟨70000, 3, 31⟩ ∧
    classifyUnit true ⟨some 1, none, none, none, some "+70000-03-31"⟩ =
      some (4464, 1) ∧
    (4464 : Int) ≠ 70000 := by decide

/-- C7 counterexample: `docTagA` and `docTagB` are identical except that the
value-100 observation is tagged "SalesRevenueNet" (alias B) instead of
"Revenues" (alias A) — the pooled observations are a permutation of each
other — yet the Revenue output differs ([(2020, 100)] versus [(2020, -100)]),
because retagging reorders the pool and the first-seen tie-break between the
equal-magnitude values 100 and -100 then picks the other value. -/
theorem C7_alias_counterexample :
    processMetric docTagA revenueTags false = [(2020, 100)] ∧
    processMetric docTagB revenueTags false = [(2020, -100)] ∧
    processMetric docTagA revenueTags false ≠
      processMetric docTagB revenueTags false ∧
    (extracted_data docTagA revenueTags false).Perm
      (extracted_data docTagB revenueTags false) := by
  refine ⟨by decide, by decide, by decide, ?_⟩
  have h1 : extracted_data docTagA revenueTags false =
      [(2020, 100), (2020, -100)] := by decide
  have h2 : extracted_data docTagB revenueTags false =
      [(2020, -100), (2020, 100)] := by decide
  rw [h1, h2]
  exact List.Perm.swap _ _ _

/-- C7 (amended): the Extractor pools exactly the observations whose tag
equals one of the metric's aliases, drawn from every unit bucket with the
unit name unconstrained; and alias choice cannot affect the metric's output
as long as the pool carries no two distinct values of equal absolute
magnitude for one fiscal year (retagging permutes the pool, and
reconciliation is permutation-invariant in the absence of such magnitude
ties; with a tie, first-seen order decides — see the counterexample). -/
theorem C7_alias_pooling (gaap1 gaap2 : Gaap) (tags : List String)
    (inst : Bool) :
    (∀ y v, (y, v) ∈ extracted_data gaap1 tags inst ↔
      ∃ tag ∈ tags, ∃ fd, lookupKey tag gaap1 = some fd ∧
        ∃ b ∈ fd.units, ∃ u ∈ b.2, classifyUnit inst u = some (y, v)) ∧
    ((extracted_data gaap1 tags inst).Perm (extracted_data gaap2 tags inst) →
      noTiesPool (extracted_data gaap1 tags inst) →
      processMetric gaap1 tags inst = processMetric gaap2 tags inst) :=
  ⟨fun _ _ => mem_extracted_data,
   fun hperm hnt => final_vec_eq_of_perm hperm hnt⟩

/-- Witness for C7: one valid annual observation retagged from alias A to
alias B of the Revenue metric leaves the output unchanged. -/
theorem C7_alias_pooling_witness :
    processMetric docSingleA revenueTags false =
      processMetric docSingleB revenueTags false :=
  (C7_alias_pooling docSingleA docSingleB revenueTags false).2
    (by decide) (by decide)

/-- C8 counterexample: `docOrder1` and `docOrder2` hold the same unit buckets
for the same tag — their bucket lists are permutations of each other, which
is exactly how two runs of the Rust program may iterate one and the same
`HashMap<String, Vec<FactUnit>>`, whose cross-run iteration order is
randomized — yet the resulting Reports differ, because the two
equal-magnitude values 100 and -100 for fiscal 2020 are tie-broken by
first-seen order. -/
theorem C8_run_order_counterexample :
    ([("shares", [obsShares]), ("USD", [obsSharesNeg])] :
        List (String × List FactUnit)).Perm
      [("USD", [obsSharesNeg]), ("shares", [obsShares])] ∧
    lookupKey "Shares Outstanding" (buildResults (some docOrder1)) =
      some [(2020, 100)] ∧
    lookupKey "Shares Outstanding" (buildResults (some docOrder2)) =
      some [(2020, -100)] ∧
    runMain [⟨1, "X"⟩] "X" ⟨"E", ⟨some docOrder1⟩⟩ ≠
      runMain [⟨1, "X"⟩] "X" ⟨"E", ⟨some docOrder2⟩⟩ := by
  refine ⟨List.Perm.swap _ _ _, by decide, by decide, by decide⟩

/-- C8 (amended): each run's output is a pure function of the document
together with the iteration order its hash maps happen to give; two runs
agree whenever, for every metric, they pool the same classified observations
up to order and no two distinct pooled values of equal absolute magnitude
share a fiscal year — without the no-tie condition, cross-run map order can
change the Report, as the counterexample shows. -/
theorem C8_determinism (g1 g2 : Gaap)
    (h : ∀ cfg ∈ metrics_config,
      (extracted_data g1 cfg.2.1 cfg.2.2).Perm (extracted_data g2 cfg.2.1 cfg.2.2) ∧
      noTiesPool (extracted_data g1 cfg.2.1 cfg.2.2)) :
    buildResults (some g1) = buildResults (some g2) := by
  unfold buildResults
  apply List.map_congr_left
  intro cfg hcfg
  rcases h cfg hcfg with ⟨hp, hnt⟩
  exact congrArg (fun s => (cfg.1, s)) (final_vec_eq_of_perm hp hnt)

/-- Witness for C8: with a single shares observation and no magnitude tie,
the two bucket iteration orders yield identical results. -/
theorem C8_determinism_witness :
    buildResults (some docNT1) = buildResults (some docNT2) :=
  C8_determinism docNT1 docNT2 (by decide)

/-- C9 counterexample: with an empty ticker table the symbol "AAPL" does not
resolve, and `main` returns `Ok(())` — a silent success exit with no output,
modelled as `none` — rather than failing with a propagating
"symbol not found" error as the claim states. -/
theorem C9_silent_exit_counterexample :
    resolveCik [] "AAPL" = 0 ∧ runMain [] "AAPL" factsEmpty = none := by decide

/-- C9 (amended): when the symbol does not resolve (the resolved cik is 0),
the program exits silently with success, producing no report and no error;
the core engine is consequently only ever invoked with a strictly positive
identifier (the cik is an unsigned integer, so it is never negative). -/
theorem C9_unresolved_symbol (mapping : List TickerEntry) (arg : String)
    (facts : CompanyFacts) :
    (resolveCik mapping (to_uppercase arg) = 0 → runMain mapping arg facts = none) ∧
    (∀ r, runMain mapping arg facts = some r →
      0 < r.cik ∧ r.cik = resolveCik mapping (to_uppercase arg)) := by
  constructor
  · intro h
    simp [runMain, h]
  · intro r hr
    unfold runMain at hr
    by_cases h : resolveCik mapping (to_uppercase arg) = 0
    · simp [h] at hr
    · simp only [if_neg h, Option.some_inj] at hr
      rw [← hr]
      exact ⟨Nat.pos_of_ne_zero h, rfl⟩

/-- Witness for C9: an unresolvable symbol exits silently; a resolvable one
yields a report whose cik is positive. -/
theorem C9_unresolved_symbol_witness :
    runMain [] "AAPL" factsEmpty = none ∧
    (0 : Nat) <
      ({ ticker := "AAPL", cik := 320193, name := "Example Corp",
         financials := [] } : Report).cik :=
  ⟨(C9_unresolved_symbol [] "AAPL" factsEmpty).1 rfl,
   ((C9_unresolved_symbol [⟨320193, "AAPL"⟩] "aapl" factsEmpty).2
      { ticker := "AAPL", cik := 320193, name := "Example Corp",
        financials := [] } (by decide)).1⟩

/-- C10: every (year, value) point of every output series is the classified
image of some raw observation of the input document tagged with one of that
metric's aliases — the engine never invents or combines values. -/
theorem C10_provenance (usGaap : Option Gaap) (name : String)
    (series : List (Nat × ℚ)) (y : Nat) (v : ℚ)
    (hs : (name, series) ∈ buildResults usGaap) (hp : (y, v) ∈ series) :
    ∃ tags inst, (name, tags, inst) ∈ metrics_config ∧
      ∃ tag ∈ tags, ∃ gaap fd, usGaap = some gaap ∧
        lookupKey tag gaap = some fd ∧
        ∃ b ∈ fd.units, ∃ u ∈ b.2, classifyUnit inst u = some (y, v) := by
  cases usGaap with
  | none => simp [buildResults] at hs
  | some gaap =>
    rcases List.mem_map.mp hs with ⟨cfg, hcfg, he⟩
    injection he with e1 e2
    subst e1
    rw [← e2] at hp
    have hp2 : (y, v) ∈ unique_map (extracted_data gaap cfg.2.1 cfg.2.2) :=
      (final_vec_perm _).mem_iff.mp hp
    have hl : lookupYear y (unique_map (extracted_data gaap cfg.2.1 cfg.2.2)) =
        some v :=
      lookupYear_of_mem_nodup (nodupKeys_unique_map _) hp2
    rw [lookupYear_unique_map] at hl
    have hv : v ∈ valuesForYear y (extracted_data gaap cfg.2.1 cfg.2.2) :=
      selectVal_mem hl
    rcases List.mem_map.mp hv with ⟨p, hpf, he2⟩
    have hpy : p.1 = y := of_decide_eq_true (List.mem_filter.mp hpf).2
    have hpmem : p ∈ extracted_data gaap cfg.2.1 cfg.2.2 :=
      (List.mem_filter.mp hpf).1
    have hyv : (y, v) ∈ extracted_data gaap cfg.2.1 cfg.2.2 := by
      have hpe : p = (y, v) := Prod.ext hpy he2
      rwa [hpe] at hpmem
    rcases mem_extracted_data.mp hyv with ⟨tag, htag, fd, hfd, b, hb, u, hu, hcl⟩
    exact ⟨cfg.2.1, cfg.2.2, hcfg, tag, htag, gaap, fd, rfl, hfd, b, hb, u, hu, hcl⟩

/-- Witness for C10: the 2019 Revenue point of the two-year document is the
classified image of its first raw observation. -/
theorem C10_provenance_witness :
    ∃ tags inst, ("Revenue", tags, inst) ∈ metrics_config ∧
      ∃ tag ∈ tags, ∃ gaap fd, (some docTwoYears : Option Gaap) = some gaap ∧
        lookupKey tag gaap = some fd ∧
        ∃ b ∈ fd.units, ∃ u ∈ b.2, classifyUnit inst u = some (2019, 1000) :=
  C10_provenance (some docTwoYears) "Revenue" [(2019, 1000), (2020, 1200)]
    2019 1000 (by decide) (by decide)

end ValueInvesting
